import Mathlib

/-!
# LuminaWeb secure envelope protocol — verification development

A shallow embedding of the core of the LuminaWeb messaging service
(envelope construction/validation, crypto primitives, credential/session
lifecycle, replay guard, real-time delivery coordinator), with theorems
checking the behavioural properties stated in the design document.

Conventions of the embedding:
* JavaScript strings are Lean `String`s (a `String` is a list of
  characters, and `length` counts characters).
* JavaScript `Set`/`Map` values are association lists kept in insertion
  order, matching the iteration order guarantees of the originals.
* Clock reads (`Date.now()`) become an explicit `now : Int` argument
  (milliseconds); date parsing (`new Date(s).getTime()`) becomes an
  explicit `parseDate : String → Option Int` argument, `none` standing
  for an invalid date (`NaN`).
* External cryptography (RSA signatures, bcrypt) is passed in as an
  oracle function where the surrounding logic is what is verified, and
  modelled symbolically (free constructors) where the claim is about the
  crypto data flow itself.
* Fallible code returns `Except`/`Option` instead of throwing.
-/

/-! ## SecurityUtils (src/lib/security.ts) -/

/-- Splits a character list at every occurrence of the separator, like
JavaScript `String.split` with a single-character separator. -/
def splitOnChar (sep : Char) : List Char → List (List Char)
  | [] => [[]]
  | c :: rest =>
      let r := splitOnChar sep rest
      if c == sep then [] :: r
      else
        match r with
        | h :: t => (c :: h) :: t
        | [] => [[c]]

/-- Characters the local part of an address may contain according to the
validation pattern in `SecurityUtils.validateEmail`: ASCII letters and
digits plus the ASCII punctuation set of the pattern (codes listed). -/
def isLocalChar (c : Char) : Bool :=
  c.isAlphanum ||
    [33, 35, 36, 37, 38, 39, 42, 43, 45, 46, 47, 61, 63, 94, 95, 96,
      123, 124, 125, 126].contains c.toNat

/-- One domain label of `SecurityUtils.validateEmail`: starts and ends with
an ASCII alphanumeric, interior characters are alphanumeric or hyphen, and
the label is at most 63 characters long. -/
def labelOk : List Char → Bool
  | [] => false
  | [c] => c.isAlphanum
  | c :: rest =>
      c.isAlphanum && rest.length ≤ 62 &&
      rest.dropLast.all (fun x => x.isAlphanum || x == '-') &&
      (match rest.getLast? with
       | some x => x.isAlphanum
       | none => false)

/-- Domain part of `SecurityUtils.validateEmail`: at least two
dot-separated labels, each well-formed. -/
def domainOk (d : List Char) : Bool :=
  let parts := splitOnChar '.' d
  decide (2 ≤ parts.length) && parts.all labelOk

/-- Local part of `SecurityUtils.validateEmail`: one or more allowed
characters. -/
def localOk (l : List Char) : Bool :=
  !l.isEmpty && l.all isLocalChar

/-- The regular-expression test of `SecurityUtils.validateEmail`: exactly
one at sign separating a well-formed local part from a well-formed
domain. -/
def emailPatternOk (email : String) : Bool :=
  match splitOnChar '@' email.toList with
  | [l, d] => localOk l && domainOk d
  | _ => false

/-- Whether the character list contains two consecutive dots
(JavaScript `email.includes('..')`). -/
def hasDoubleDot : List Char → Bool
  | c1 :: c2 :: rest => (c1 == '.' && c2 == '.') || hasDoubleDot (c2 :: rest)
  | _ => false

/-- `SecurityUtils.validateEmail`: pattern test, length between 5 and 320,
and no two consecutive dots. -/
def validateEmail (email : String) : Bool :=
  emailPatternOk email && email.length ≤ 320 && 5 ≤ email.length &&
    !hasDoubleDot email.toList

/-- `SecurityUtils.isValidTimestamp`: parses the timestamp, computes
`age = now - messageTime`, and accepts when `0 ≤ age ≤ maxAgeMs`.  The
source default for `maxAgeMs` is 300000 ms (5 minutes); an unparseable
timestamp (`NaN` in the source) is rejected because both comparisons
against `NaN` are false. -/
def isValidTimestamp (parseDate : String → Option Int) (now : Int)
    (timestamp : String) (maxAgeMs : Int) : Bool :=
  match parseDate timestamp with
  | none => false
  | some messageTime =>
      let age := now - messageTime
      decide (0 ≤ age) && decide (age ≤ maxAgeMs)

/-! ## LuminaWebProtocol (src/lib/protocol.ts) -/

/-- A protocol envelope (`LWPMessage`).  The source fields `type`, `from`
and `to` are reserved words in Lean and appear here as `mtype`, `mfrom`
and `mto`. -/
structure LWPMessage where
  version : String
  mtype : String
  mfrom : String
  mto : String
  timestamp : String
  nonce : String
  signature : String
  payload : String
deriving DecidableEq

/-- Result shape of `LuminaWebProtocol.validateMessage`. -/
structure ValidationResult where
  isValid : Bool
  errors : List String
deriving DecidableEq

/-- `LuminaWebProtocol.MAX_MESSAGE_SIZE` (10 MB). -/
def MAX_MESSAGE_SIZE : Nat := 10 * 1024 * 1024

/-- The fixed-order concatenation signed and verified by the protocol:
version, type, from, to, timestamp, nonce, payload. -/
def signatureData (m : LWPMessage) : String :=
  m.version ++ m.mtype ++ m.mfrom ++ m.mto ++ m.timestamp ++ m.nonce ++ m.payload

/-- `LuminaWebProtocol.validateMessage`: accumulates every applicable
error (version, type, sender, recipient, timestamp freshness, nonce
length, payload size, signature) and is valid exactly when no error was
recorded.  `verify` is the asymmetric-signature oracle
(`SecureCrypto.verify`), `parseDate`/`now` the clock as explained in the
file header.  The nonce test mirrors
`!message.nonce || message.nonce.length !== 64`. -/
def validateMessage (verify : String → String → String → Bool)
    (parseDate : String → Option Int) (now : Int)
    (message : LWPMessage) (publicKey : String) : ValidationResult :=
  let errors : List String :=
    (if message.version ≠ "1.0" then ["Invalid protocol version"] else []) ++
    (if !(["auth", "handshake", "message", "ack", "presence"].contains message.mtype) then
      ["Invalid message type"] else []) ++
    (if !(validateEmail message.mfrom) then ["Invalid sender email"] else []) ++
    (if !(validateEmail message.mto) then ["Invalid recipient email"] else []) ++
    (if !(isValidTimestamp parseDate now message.timestamp 300000) then
      ["Invalid or expired timestamp"] else []) ++
    (if message.nonce.length = 0 || message.nonce.length ≠ 64 then ["Invalid nonce"] else []) ++
    (if MAX_MESSAGE_SIZE < message.payload.length then ["Message payload too large"] else []) ++
    (if !(verify (signatureData message) message.signature publicKey) then
      ["Invalid message signature"] else [])
  { isValid := errors.isEmpty, errors := errors }

/-- `LuminaWebProtocol.isReplayAttack`: returns `true` (replay) when the
nonce is already in the consumed set, otherwise records the nonce and
returns `false`.  The mutated set is returned as the second component. -/
def isReplayAttack (nonce : String) (usedNonces : List String) :
    Bool × List String :=
  if usedNonces.contains nonce then (true, usedNonces)
  else (false, usedNonces ++ [nonce])

/-! Concrete sample data used to evaluate the definitions. -/

/-- A 64-character nonce. -/
def sampleNonce : String := String.mk (List.replicate 64 'a')

/-- A concrete envelope that passes every check of `validateMessage`
relative to `acceptAllVerify` and `sampleParseDate` at time 0. -/
def sampleEnvelope : LWPMessage :=
  { version := "1.0", mtype := "message", mfrom := "ab@cd.ef",
    mto := "gh@ij.kl", timestamp := "2024-01-01T00:00:00.000Z",
    nonce := sampleNonce, signature := "sig", payload := "p" }

/-- A signature oracle that accepts everything, standing in for a
correctly signed envelope. -/
def acceptAllVerify : String → String → String → Bool := fun _ _ _ => true

/-- A date parser mapping the sample timestamp to time 0. -/
def sampleParseDate : String → Option Int :=
  fun s => if s = "2024-01-01T00:00:00.000Z" then some 0 else none

/-! ## SecureCrypto (src/lib/crypto.ts) — symbolic byte strings

The symmetric primitives are modelled symbolically: a byte string is a
term of the free datatype `CBytes`, whose constructors stand for the
cryptographic operations that produced it.  Constructor injectivity
expresses the standard idealisation that distinct keys give distinct
AES outputs and distinct HMAC tags (HMAC-SHA256 is collision-free in the
model). -/

/-- Symbolic byte strings.  `raw` injects literal data; `aesCbcEnc key iv
plaintext` is an AES-256-CBC ciphertext; `hmacSha256 key msg` an
HMAC-SHA256 tag; `cat` concatenation of the hex encodings. -/
inductive CBytes where
  | raw : String → CBytes
  | aesCbcEnc : CBytes → CBytes → String → CBytes
  | hmacSha256 : CBytes → CBytes → CBytes
  | cat : CBytes → CBytes → CBytes
deriving DecidableEq

/-- The `{iv, data, tag}` triple produced by `SecureCrypto.encrypt`
(`EncryptedData` in the source types). -/
structure EncryptedData where
  iv : CBytes
  data : CBytes
  tag : CBytes
deriving DecidableEq

/-- `SecureCrypto.encrypt`: AES-256-CBC under `key` with the fresh random
`iv` (passed explicitly here), then an HMAC-SHA256 tag over
ciphertext-then-iv under the same key (encrypt-then-MAC). -/
def encrypt (data : String) (key : CBytes) (iv : CBytes) : EncryptedData :=
  let encrypted := CBytes.aesCbcEnc key iv data
  { iv := iv
    data := encrypted
    tag := CBytes.hmacSha256 key (CBytes.cat encrypted iv) }

/-- CBC decryption of a symbolic ciphertext: recovers the plaintext
exactly when key and iv match the ones used to encrypt; anything else
fails (wrong-key CBC output is useless and the source never reaches it
anyway, see `decrypt`). -/
def aesCbcDec (key iv : CBytes) : CBytes → Except String String
  | CBytes.aesCbcEnc k i p =>
      if k = key && i = iv then Except.ok p else Except.error "Decryption failed"
  | _ => Except.error "Decryption failed"

/-- `SecureCrypto.decrypt`: recomputes the HMAC tag over
ciphertext-then-iv and compares it with the carried tag *first*, failing
with `Invalid authentication tag` before any ciphertext transformation;
only on a matching tag is the ciphertext deciphered. -/
def decrypt (encryptedData : EncryptedData) (key : CBytes) : Except String String :=
  let expectedTag := CBytes.hmacSha256 key (CBytes.cat encryptedData.data encryptedData.iv)
  if encryptedData.tag = expectedTag then
    aesCbcDec key encryptedData.iv encryptedData.data
  else
    Except.error "Invalid authentication tag"

/-! ### Asymmetric keys (`generateKeyPair`, `deriveSharedSecret`)

`SecureCrypto.generateKeyPair` calls Node's `generateKeyPairSync('rsa',
{modulusLength: 2048, ...})`, so every produced key has asymmetric key
type `rsa`.  `SecureCrypto.deriveSharedSecret` calls
`crypto.diffieHellman({privateKey, publicKey})`, which Node only accepts
for key types `dh`, `ec`, `x448` and `x25519` and rejects for `rsa`
keys with an incompatible-key-type error; that external contract is
modelled by `diffieHellman` below. -/

/-- Node asymmetric key types relevant here. -/
inductive KeyType where
  | rsa
  | dh
  | ec
  | x448
  | x25519
deriving DecidableEq

/-- An asymmetric key: its Node `asymmetricKeyType` plus abstract key
material identified by the generation seed. -/
structure AsymKey where
  ktype : KeyType
  seed : Nat
deriving DecidableEq

/-- A `{publicKey, privateKey}` pair (`KeyPair` in the source types). -/
structure KeyPair where
  publicKey : AsymKey
  privateKey : AsymKey
deriving DecidableEq

/-- `SecureCrypto.generateKeyPair`: a fresh RSA-2048 pair; the entropy of
the call is abstracted into the `seed` argument. -/
def generateKeyPair (seed : Nat) : KeyPair :=
  { publicKey := { ktype := KeyType.rsa, seed := seed }
    privateKey := { ktype := KeyType.rsa, seed := seed } }

/-- Whether Node's `crypto.diffieHellman` accepts this key type. -/
def isDHCapable : KeyType → Bool
  | KeyType.dh => true
  | KeyType.ec => true
  | KeyType.x448 => true
  | KeyType.x25519 => true
  | KeyType.rsa => false

/-- Node `crypto.diffieHellman({privateKey, publicKey})`: defined only
for matching DH-capable key types, where it yields the commutative raw
shared secret (abstracted as the product of the two seeds); any other
key type is rejected with an invalid-key-type error. -/
def diffieHellman (privateKey publicKey : AsymKey) : Except String Nat :=
  if isDHCapable privateKey.ktype && isDHCapable publicKey.ktype
      && privateKey.ktype = publicKey.ktype then
    Except.ok (privateKey.seed * publicKey.seed)
  else
    Except.error "Invalid key type"

/-- `SecureCrypto.deriveSharedSecret`: the raw Diffie-Hellman secret
stretched through `scryptSync` with the fixed salt `smp-protocol`
(the stretch is abstracted as injective tagging of the raw secret). -/
def deriveSharedSecret (privateKey publicKey : AsymKey) : Except String (Nat × String) :=
  (diffieHellman privateKey publicKey).map (fun s => (s, "smp-protocol"))

/-! ## SecureStorage (src/lib/storage.ts)

The JavaScript `Map` becomes an association list in insertion order;
`Map.set` overwrites in place when the key exists and appends otherwise,
`Map.get` returns the value of the first (unique) matching key. -/

/-- `Map.set`: overwrite the entry in place when the key is present,
append otherwise. -/
def mapSet {α : Type} (k : String) (v : α) (m : List (String × α)) :
    List (String × α) :=
  if m.any (fun p => p.1 == k) then
    m.map (fun p => if p.1 == k then (k, v) else p)
  else
    m ++ [(k, v)]

/-- `Map.get`: the value stored under the key, if any. -/
def mapGet {α : Type} (k : String) (m : List (String × α)) : Option α :=
  (m.find? (fun p => p.1 == k)).map (fun p => p.2)

/-- The session record kept in `SecureStorage.sessions` (the fields the
auth service stores: §`AuthSession` plus the `createdAt` stamped by
`storeSession`). -/
structure SessionData where
  userId : String
  email : String
  publicKey : String
  sessionId : String
  createdAt : Int
  expiresAt : Int
deriving DecidableEq

/-- The session map of `SecureStorage`. -/
abbrev SessionStore : Type := List (String × SessionData)

/-- `SecureStorage.storeSession`: stores the data under the session id
with `createdAt` overwritten by the current time
(`{...sessionData, createdAt: Date.now()}`). -/
def storeSession (now : Int) (sessionId : String) (sessionData : SessionData)
    (sessions : SessionStore) : SessionStore :=
  mapSet sessionId { sessionData with createdAt := now } sessions

/-- `SecureStorage.getSession`. -/
def getSession (sessionId : String) (sessions : SessionStore) : Option SessionData :=
  mapGet sessionId sessions

/-- `SecureStorage.deleteSession`. -/
def deleteSession (sessionId : String) (sessions : SessionStore) : SessionStore :=
  sessions.filter (fun p => !(p.1 == sessionId))

/-- `SecureStorage.cleanup`: the periodic sweep deletes every session
whose `createdAt` lies strictly before `now - 60 * 60 * 1000` (one
hour ago); no other field is consulted. -/
def cleanup (now : Int) (sessions : SessionStore) : SessionStore :=
  sessions.filter (fun p => !decide (p.2.createdAt < now - 60 * 60 * 1000))

/-- `SecureStorage.addUsedNonce`: inserts the nonce into the consumed
set; when the set then holds more than 10,000 entries it is replaced by
the slice of its last 5,000 entries in insertion order
(`Array.from(set).slice(-5000)`). -/
def addUsedNonce (nonce : String) (usedNonces : List String) : List String :=
  let s1 := if usedNonces.contains nonce then usedNonces else usedNonces ++ [nonce]
  if 10000 < s1.length then s1.drop (s1.length - 5000) else s1

/-- `SecureStorage.isNonceUsed`. -/
def isNonceUsed (nonce : String) (usedNonces : List String) : Bool :=
  usedNonces.contains nonce

/-- The consumed-nonce set reached from the initial empty set by a
sequence of `addUsedNonce` calls. -/
def runNonces (ns : List String) : List String :=
  ns.foldl (fun s n => addUsedNonce n s) []

/-- The user record kept in `SecureStorage.users` (`StoredUser`). -/
structure StoredUser where
  id : String
  email : String
  passwordHash : String
  publicKey : String
  encryptedPrivateKey : EncryptedData
  createdAt : String
  lastSeen : String
  isOnline : Bool
  emailVerified : Bool
deriving DecidableEq

/-- `SecureStorage.getUserByEmail`: first stored user with the given
address, in insertion order. -/
def getUserByEmail (users : List StoredUser) (email : String) : Option StoredUser :=
  users.find? (fun u => u.email == email)

/-- `SecureStorage.updateUserPresence`: sets the online flag and stamps
`lastSeen` on the user with the given id. -/
def updateUserPresence (users : List StoredUser) (userId : String)
    (isOnline : Bool) (nowIso : String) : List StoredUser :=
  users.map (fun u =>
    if u.id == userId then { u with isOnline := isOnline, lastSeen := nowIso } else u)

/-! ## AuthService (src/lib/auth.ts)

Bearer tokens are modelled symbolically: a signed token is its claims
plus the secret it was signed with; `jwtVerify` succeeds exactly when
the presented secret matches and the token has not expired (the
`jsonwebtoken` library rejects once the clock reaches `exp`).  The
random `jti` of `generateTokens` is an explicit argument.  Source
constants: access tokens live 15 minutes, refresh tokens and sessions
7 days. -/

/-- The claims carried by a token (`JWTPayload`). -/
structure JWTClaims where
  userId : String
  email : String
  jti : String
  exp : Int
deriving DecidableEq

/-- A signed token: claims plus signing secret (symbolic signature). -/
structure SignedJWT where
  claims : JWTClaims
  secret : String
deriving DecidableEq

/-- `jwt.verify`: the token's signature must match the secret and the
token must not be expired; on success the claims are returned. -/
def jwtVerify (token : SignedJWT) (secret : String) (now : Int) : Option JWTClaims :=
  if token.secret = secret ∧ now < token.claims.exp then some token.claims else none

/-- The `{accessToken, refreshToken}` pair issued by the auth service. -/
structure TokenPair where
  accessToken : SignedJWT
  refreshToken : SignedJWT
deriving DecidableEq

/-- `AuthService.generateTokens`: an access token expiring in 15 minutes
and a refresh token expiring in 7 days, both carrying the same fresh
`jti`. -/
def generateTokens (userId email : String) (secret : String) (now : Int)
    (jti : String) : TokenPair × String :=
  ({ accessToken := { claims := { userId := userId, email := email, jti := jti,
                                  exp := now + 15 * 60 * 1000 }, secret := secret }
     refreshToken := { claims := { userId := userId, email := email, jti := jti,
                                   exp := now + 7 * 24 * 60 * 60 * 1000 }, secret := secret } },
   jti)

/-- Result shape of `AuthService.verifyToken`. -/
structure VerifyResult where
  valid : Bool
  payload : Option JWTClaims
  message : Option String
deriving DecidableEq

/-- `AuthService.verifyToken`: cryptographic verification of the token,
then an independent check that the session referenced by the token's
`jti` still exists and is not past its own `expiresAt`. -/
def verifyToken (sessions : SessionStore) (secret : String) (now : Int)
    (token : SignedJWT) : VerifyResult :=
  match jwtVerify token secret now with
  | none => { valid := false, payload := none, message := some "Invalid token" }
  | some decoded =>
      match getSession decoded.jti sessions with
      | none => { valid := false, payload := none, message := some "Session expired" }
      | some session =>
          if session.expiresAt < now then
            { valid := false, payload := none, message := some "Session expired" }
          else
            { valid := true, payload := some decoded, message := none }

/-- Result shape of `AuthService.refreshToken`. -/
structure RefreshResult where
  success : Bool
  tokens : Option TokenPair
  message : Option String
deriving DecidableEq

/-- `AuthService.refreshToken`: verifies the presented refresh token and
its session, then issues a fresh token pair under a new `jti` and stores
a new session record under that `jti` (7-day expiry); the token and
session state after the call is returned alongside the result. -/
def refreshToken (sessions : SessionStore) (secret : String) (now : Int)
    (newJti : String) (token : SignedJWT) : RefreshResult × SessionStore :=
  match jwtVerify token secret now with
  | none => ({ success := false, tokens := none, message := some "Token refresh failed" }, sessions)
  | some decoded =>
      match getSession decoded.jti sessions with
      | none => ({ success := false, tokens := none, message := some "Session expired" }, sessions)
      | some session =>
          if session.expiresAt < now then
            ({ success := false, tokens := none, message := some "Session expired" }, sessions)
          else
            let newTokens := (generateTokens decoded.userId decoded.email secret now newJti).1
            let newSession : SessionData :=
              { session with sessionId := newJti, expiresAt := now + 7 * 24 * 60 * 60 * 1000 }
            ({ success := true, tokens := some newTokens, message := none },
             storeSession now newJti newSession sessions)

/-- The public identity info returned by `AuthService.login`. -/
structure UserInfo where
  id : String
  email : String
  publicKey : String
  lastSeen : String
deriving DecidableEq

/-- Result shape of `AuthService.login`. -/
structure LoginResult where
  success : Bool
  message : String
  user : Option UserInfo
  tokens : Option TokenPair
  encryptedPrivateKey : Option EncryptedData
deriving DecidableEq

/-- The generic failure result both credential-failure paths of
`AuthService.login` return. -/
def invalidCredentials : LoginResult :=
  { success := false, message := "Invalid credentials", user := none,
    tokens := none, encryptedPrivateKey := none }

/-- `AuthService.login`: looks the user up by address; a missing user and
a failed password check both return the generic `Invalid credentials`
result and leave all state untouched; on success presence is set online,
tokens are issued and a session stored.  `verifyPassword` is the bcrypt
oracle; `lastSeen` in the response reflects the presence update the call
itself just performed (the source mutates the shared user object before
building the response). -/
def login (users : List StoredUser) (sessions : SessionStore)
    (verifyPassword : String → String → Bool) (secret : String) (now : Int)
    (nowIso : String) (jti : String) (email password : String) :
    LoginResult × List StoredUser × SessionStore :=
  match getUserByEmail users email with
  | none => (invalidCredentials, users, sessions)
  | some user =>
      if !(verifyPassword password user.passwordHash) then
        (invalidCredentials, users, sessions)
      else
        let users2 := updateUserPresence users user.id true nowIso
        let tokens := (generateTokens user.id email secret now jti).1
        let sessions2 := storeSession now jti
          { userId := user.id, email := email, publicKey := user.publicKey,
            sessionId := jti, createdAt := now,
            expiresAt := now + 7 * 24 * 60 * 60 * 1000 } sessions
        ({ success := true, message := "Login successful",
           user := some { id := user.id, email := user.email,
                          publicKey := user.publicKey, lastSeen := nowIso },
           tokens := some tokens,
           encryptedPrivateKey := some user.encryptedPrivateKey },
         users2, sessions2)

/-! ## WebSocketManager (src/pages/api/ws.ts)

The connection registry is the `clients` map keyed by user id; each
connection carries its user's address and the heartbeat liveness flag.
A `pong` frame from a connection sets its flag; the fixed-interval
heartbeat sweep terminates and removes every connection whose flag is
down and pings every surviving connection after clearing its flag. -/

/-- A live connection: the connected user's address and the heartbeat
liveness flag (`ExtendedWebSocket.email`/`isAlive`). -/
structure ClientConn where
  email : String
  isAlive : Bool
deriving DecidableEq

/-- Outcome of one heartbeat sweep: the surviving registry, the user ids
of terminated connections, and the user ids that were pinged. -/
structure SweepResult where
  remaining : List (String × ClientConn)
  terminated : List String
  pinged : List String
deriving DecidableEq

/-- One tick of `WebSocketManager.startHeartbeat`: every connection whose
liveness flag is down is terminated and removed from the registry; every
other connection has its flag cleared and is pinged. -/
def heartbeatSweep (clients : List (String × ClientConn)) : SweepResult :=
  { remaining := (clients.filter (fun p => p.2.isAlive)).map
      (fun p => (p.1, { email := p.2.email, isAlive := false }))
    terminated := (clients.filter (fun p => !p.2.isAlive)).map (fun p => p.1)
    pinged := (clients.filter (fun p => p.2.isAlive)).map (fun p => p.1) }

/-- The `pong` handler: marks the connection of the given user id
alive. -/
def pong (userId : String) (clients : List (String × ClientConn)) :
    List (String × ClientConn) :=
  clients.map (fun p =>
    if p.1 == userId then (p.1, { email := p.2.email, isAlive := true }) else p)

/-- The pong events arriving between two heartbeat sweeps, applied in
order. -/
def applyPongs (pongs : List String) (clients : List (String × ClientConn)) :
    List (String × ClientConn) :=
  pongs.foldl (fun cs u => pong u cs) clients

/-- `WebSocketManager.notifyNewMessage`: finds the recipient's live
connection by address and pushes a message frame to it; returns the
connection the frame was sent to, `none` when the recipient has no live
connection (silent no-op). -/
def notifyNewMessage (recipientEmail : String)
    (clients : List (String × ClientConn)) : Option ClientConn :=
  (clients.map (fun p => p.2)).find? (fun c => c.email == recipientEmail)

/-! ## Theorems -/

/-- C8: with the default 5-minute window, `isValidTimestamp` accepts a
timestamp string exactly when it parses to a time whose age
`now - messageTime` is at least 0 and at most 300000 ms; in particular a
future timestamp (negative age) and an age strictly above the window are
rejected, and age exactly 0 or exactly 300000 is accepted. -/
theorem isValidTimestamp_default_window_iff (parseDate : String → Option Int)
    (now : Int) (ts : String) :
    isValidTimestamp parseDate now ts 300000 = true ↔
      ∃ t, parseDate ts = some t ∧ 0 ≤ now - t ∧ now - t ≤ 300000 := by
  unfold isValidTimestamp
  cases h : parseDate ts with
  | none => simp
  | some t => simp

/-- Witness for C8 at concrete data: a timestamp exactly at the window
edge (age 300000 ms) is accepted. -/
theorem isValidTimestamp_default_window_iff_witness :
    isValidTimestamp sampleParseDate 300000 "2024-01-01T00:00:00.000Z" 300000
      = true :=
  (isValidTimestamp_default_window_iff sampleParseDate 300000
    "2024-01-01T00:00:00.000Z").mpr ⟨0, by decide, by decide, by decide⟩

/-- C5: decrypting an encryption with the same key recovers the
plaintext, and decrypting with any other key fails with the
authentication-tag error — the tag comparison happens before any
ciphertext transformation, so a wrong key never yields garbled
plaintext.  (HMAC-SHA256 is idealised as collision-free by the free
constructors of `CBytes`.) -/
theorem decrypt_encrypt_roundtrip_and_auth (plaintext : String)
    (key iv otherKey : CBytes) :
    decrypt (encrypt plaintext key iv) key = Except.ok plaintext ∧
    (otherKey ≠ key →
      decrypt (encrypt plaintext key iv) otherKey =
        Except.error "Invalid authentication tag") := by
  constructor
  · simp [decrypt, encrypt, aesCbcDec]
  · intro h
    simp only [decrypt, encrypt]
    rw [if_neg]
    intro hcontr
    exact h (CBytes.hmacSha256.inj hcontr).1.symm

/-- Witness for C5 at concrete data. -/
theorem decrypt_encrypt_roundtrip_and_auth_witness :
    decrypt (encrypt "msg" (CBytes.raw "k") (CBytes.raw "iv")) (CBytes.raw "k") =
      Except.ok "msg" ∧
    decrypt (encrypt "msg" (CBytes.raw "k") (CBytes.raw "iv")) (CBytes.raw "j") =
      Except.error "Invalid authentication tag" :=
  ⟨(decrypt_encrypt_roundtrip_and_auth "msg" (CBytes.raw "k") (CBytes.raw "iv")
      (CBytes.raw "j")).1,
   (decrypt_encrypt_roundtrip_and_auth "msg" (CBytes.raw "k") (CBytes.raw "iv")
      (CBytes.raw "j")).2 (by decide)⟩

/-- C4 (code bug): every key pair produced by `generateKeyPair` is an RSA
pair, and Node's `crypto.diffieHellman` rejects RSA keys, so
`deriveSharedSecret` fails on every pair of generated keys instead of
producing the commutative shared secret the design intends. -/
theorem deriveSharedSecret_always_fails_on_generated_keys (s1 s2 : Nat) :
    deriveSharedSecret (generateKeyPair s1).privateKey (generateKeyPair s2).publicKey =
      Except.error "Invalid key type" := rfl

/-- C6: `verifyToken` accepts exactly when the token cryptographically
verifies (matching secret, not expired) *and* the session referenced by
the token's `jti` still exists in the store and is not past its own
expiry.  In particular a cryptographically valid token is rejected once
its session has been deleted (the existential on the right fails). -/
theorem verifyToken_requires_live_session (sessions : SessionStore)
    (secret : String) (now : Int) (token : SignedJWT) :
    (verifyToken sessions secret now token).valid = true ↔
      (jwtVerify token secret now).isSome ∧
        ∃ session, getSession token.claims.jti sessions = some session ∧
          ¬ session.expiresAt < now := by
  unfold verifyToken
  cases h : jwtVerify token secret now with
  | none => simp [h]
  | some decoded =>
      have hd : decoded = token.claims := by
        unfold jwtVerify at h
        split at h
        · exact (Option.some.inj h).symm
        · exact absurd h (by simp)
      subst hd
      cases hs : getSession token.claims.jti sessions with
      | none => simp [h, hs]
      | some session =>
          by_cases hexp : session.expiresAt < now
          · simp [h, hs, hexp]
          · simp [h, hs, hexp]
            omega

/-- C7: the two credential-failure paths of `login` are observationally
identical: an unknown address and a known address with a failing
password check both return exactly the generic `Invalid credentials`
result and leave the user and session state untouched. -/
theorem login_failures_indistinguishable
    (users : List StoredUser) (sessions : SessionStore)
    (verifyPassword : String → String → Bool) (secret : String) (now : Int)
    (nowIso : String) (jti1 jti2 : String) (email1 pw1 email2 pw2 : String)
    (u : StoredUser)
    (h1 : getUserByEmail users email1 = none)
    (h2 : getUserByEmail users email2 = some u)
    (h3 : verifyPassword pw2 u.passwordHash = false) :
    login users sessions verifyPassword secret now nowIso jti1 email1 pw1 =
      (invalidCredentials, users, sessions) ∧
    login users sessions verifyPassword secret now nowIso jti2 email2 pw2 =
      (invalidCredentials, users, sessions) := by
  constructor
  · unfold login
    rw [h1]
  · unfold login
    rw [h2]
    simp [h3]

/-- A concrete stored user for the witnesses. -/
def sampleUser : StoredUser :=
  { id := "id1", email := "alice@x.yz", passwordHash := "correct",
    publicKey := "pk",
    encryptedPrivateKey := encrypt "priv" (CBytes.raw "k") (CBytes.raw "iv"),
    createdAt := "2024-01-01T00:00:00.000Z",
    lastSeen := "2024-01-01T00:00:00.000Z", isOnline := false,
    emailVerified := true }

/-- A bcrypt oracle for the witnesses: the stored hash is the password
itself. -/
def sampleVerifyPassword : String → String → Bool :=
  fun password hash => password == hash

/-- Witness for C7 at concrete data: a login for an absent address and a
login for a present address with a wrong password produce the same
generic failure and leave the state unchanged. -/
theorem login_failures_indistinguishable_witness :
    login [sampleUser] [] sampleVerifyPassword "s" 0 "iso" "j1" "absent@x.yz" "pw" =
      (invalidCredentials, [sampleUser], []) ∧
    login [sampleUser] [] sampleVerifyPassword "s" 0 "iso" "j2" "alice@x.yz" "wrong" =
      (invalidCredentials, [sampleUser], []) :=
  login_failures_indistinguishable [sampleUser] [] sampleVerifyPassword "s" 0
    "iso" "j1" "j2" "absent@x.yz" "pw" "alice@x.yz" "wrong" sampleUser
    (by decide) (by decide) (by decide)

/-- The eight error strings `validateMessage` can emit. -/
def validateMessageErrors : List String :=
  ["Invalid protocol version", "Invalid message type", "Invalid sender email",
   "Invalid recipient email", "Invalid or expired timestamp", "Invalid nonce",
   "Message payload too large", "Invalid message signature"]

/-- An element of a conditional singleton is that singleton's element. -/
theorem mem_ite_singleton {c : Prop} [Decidable c] {e s : String}
    (h : e ∈ (if c then [s] else [])) : e = s := by
  split at h
  · simpa using h
  · simp at h

/-- C1 (counterexample): `validateMessage` does not consult the
consumed-nonce set at all — an envelope passing every check it does
perform is reported valid with no errors even though its nonce is
already in the consumed set, contradicting the claim that validation
rejects a replayed nonce. -/
theorem validateMessage_accepts_consumed_nonce :
    [sampleNonce].contains sampleEnvelope.nonce = true ∧
    (validateMessage acceptAllVerify sampleParseDate 0 sampleEnvelope "pk").isValid
      = true ∧
    (validateMessage acceptAllVerify sampleParseDate 0 sampleEnvelope "pk").errors
      = [] :=
  ⟨by decide, by decide, by decide⟩

/-- C1 (amended): the replay check lives in the separate
`isReplayAttack`, not in `validateMessage`: `isReplayAttack` reports a
replay exactly when the nonce is already in the consumed set, leaves the
set unchanged in that case, and on first sight records the nonce as
consumed; `validateMessage` only ever emits its eight fixed errors, none
of which concerns replay. -/
theorem replay_check_is_separate_from_validation
    (nonce : String) (usedNonces : List String)
    (verify : String → String → String → Bool) (parseDate : String → Option Int)
    (now : Int) (message : LWPMessage) (publicKey : String) :
    (isReplayAttack nonce usedNonces).1 = usedNonces.contains nonce ∧
    (isReplayAttack nonce usedNonces).2.contains nonce = true ∧
    (usedNonces.contains nonce = true →
      (isReplayAttack nonce usedNonces).2 = usedNonces) ∧
    (usedNonces.contains nonce = false →
      (isReplayAttack nonce usedNonces).2 = usedNonces ++ [nonce]) ∧
    (∀ e ∈ (validateMessage verify parseDate now message publicKey).errors,
      e ∈ validateMessageErrors) := by
  have hiff : ∀ (l : List String) (a : String), l.contains a = true ↔ a ∈ l :=
    fun l a => List.elem_iff
  refine ⟨?_, ?_, ?_, ?_, ?_⟩
  · by_cases hm : nonce ∈ usedNonces
    · simp [isReplayAttack, hm, (hiff usedNonces nonce).mpr hm]
    · have hc : usedNonces.contains nonce = false :=
        Bool.eq_false_iff.mpr (fun hb => hm ((hiff _ _).mp hb))
      simp [isReplayAttack, hm, hc]
  · by_cases hm : nonce ∈ usedNonces
    · simp [isReplayAttack, hm]
    · simp [isReplayAttack, hm]
  · intro hc
    simp [isReplayAttack, (hiff _ _).mp hc]
  · intro hc
    have hm : ¬ nonce ∈ usedNonces := fun m => by
      rw [(hiff _ _).mpr m] at hc
      exact Bool.true_eq_false ▸ hc ▸ rfl
    simp [isReplayAttack, hm]
  · intro e he
    unfold validateMessage at he
    simp only [List.mem_append] at he
    rcases he with ((((((h | h) | h) | h) | h) | h) | h) | h <;>
      rw [mem_ite_singleton h] <;> decide

/-- Witness for C1's amended theorem at concrete data: a fresh nonce is
recorded as consumed, and an error actually emitted by a concrete failed
validation (stale timestamp) is one of the eight fixed errors. -/
theorem replay_check_is_separate_from_validation_witness :
    (isReplayAttack sampleNonce []).2 = [] ++ [sampleNonce] ∧
    "Invalid or expired timestamp" ∈ validateMessageErrors :=
  ⟨(replay_check_is_separate_from_validation sampleNonce [] acceptAllVerify
      sampleParseDate 0 sampleEnvelope "pk").2.2.2.1 (by decide),
   (replay_check_is_separate_from_validation sampleNonce [] acceptAllVerify
      sampleParseDate 5000000 sampleEnvelope "pk").2.2.2.2
     "Invalid or expired timestamp" (by decide)⟩

/-- A session stored two hours before the sweep but expiring far in the
future. -/
def staleSession : SessionData :=
  { userId := "u", email := "e@x.yz", publicKey := "pk", sessionId := "s1",
    createdAt := 0, expiresAt := 10000000 }

/-- C3 (counterexample): the sweep deletes a session that is *not* past
its expiry — `staleSession` expires at 10000000, the sweep runs at
7200000 (so the session is still live by `expiresAt`), yet `cleanup`
removes it because it was created more than one hour earlier. -/
theorem cleanup_deletes_unexpired_session :
    ¬ staleSession.expiresAt < 7200000 ∧
    getSession "s1" [("s1", staleSession)] = some staleSession ∧
    getSession "s1" (cleanup 7200000 [("s1", staleSession)]) = none :=
  ⟨by decide, by decide, by decide⟩

/-- Overwriting every entry of key `k` with `(k, v)` makes a lookup of
`k` find `(k, v)`, provided the key occurs. -/
theorem find?_overwrite_self {α : Type} (k : String) (v : α) :
    ∀ m : List (String × α), m.any (fun p => p.1 == k) = true →
      (m.map (fun p => if p.1 == k then (k, v) else p)).find?
        (fun p => p.1 == k) = some (k, v)
  | [], h => by simp at h
  | q :: t, h => by
      by_cases hq : (q.1 == k) = true
      · rw [List.map_cons, if_pos hq]
        exact List.find?_cons_of_pos _ (by simp)
      · rw [List.map_cons, if_neg hq,
          @List.find?_cons_of_neg _ (fun p => p.1 == k) q _ hq]
        refine find?_overwrite_self k v t ?_
        rcases List.any_eq_true.mp h with ⟨x, hx, hpx⟩
        rcases List.mem_cons.mp hx with hx1 | hx2
        · exact absurd (hx1 ▸ hpx) hq
        · exact List.any_eq_true.mpr ⟨x, hx2, hpx⟩

/-- Overwriting entries of key `k` does not disturb a lookup of a
different key `k2`. -/
theorem find?_overwrite_other {α : Type} (k k2 : String) (v : α) (hne : k2 ≠ k) :
    ∀ m : List (String × α),
      (m.map (fun p => if p.1 == k then (k, v) else p)).find?
        (fun p => p.1 == k2) = m.find? (fun p => p.1 == k2)
  | [] => rfl
  | q :: t => by
      by_cases hq : (q.1 == k) = true
      · have hqk : q.1 = k := beq_iff_eq.mp hq
        have h2 : (((k, v) : String × α).1 == k2) = false :=
          beq_eq_false_iff_ne.mpr (Ne.symm hne)
        have h3 : (q.1 == k2) = false := by rw [hqk]; exact h2
        rw [List.map_cons, if_pos hq, List.find?_cons_of_neg _ (by simp [h2]),
          List.find?_cons_of_neg _ (by simp [h3])]
        exact find?_overwrite_other k k2 v hne t
      · rw [List.map_cons, if_neg hq]
        by_cases hq2 : (q.1 == k2) = true
        · rw [@List.find?_cons_of_pos _ (fun p => p.1 == k2) q _ hq2,
            @List.find?_cons_of_pos _ (fun p => p.1 == k2) q _ hq2]
        · rw [@List.find?_cons_of_neg _ (fun p => p.1 == k2) q _ hq2,
            @List.find?_cons_of_neg _ (fun p => p.1 == k2) q _ hq2]
          exact find?_overwrite_other k k2 v hne t

/-- Looking up the key just written by `mapSet` yields the written
value. -/
theorem mapGet_mapSet_self {α : Type} (k : String) (v : α)
    (m : List (String × α)) :
    mapGet k (mapSet k v m) = some v := by
  unfold mapGet mapSet
  by_cases h : m.any (fun p => p.1 == k) = true
  · rw [if_pos h, find?_overwrite_self k v m h]
    rfl
  · rw [if_neg h]
    have hnone : m.find? (fun p => p.1 == k) = none := by
      rw [List.find?_eq_none]
      intro x hx hpx
      exact h (List.any_eq_true.mpr ⟨x, hx, hpx⟩)
    rw [List.find?_append, hnone, List.find?_cons_of_pos _ (by simp)]
    rfl

/-- Writing one key with `mapSet` does not disturb lookups of any other
key. -/
theorem mapGet_mapSet_other {α : Type} (k k2 : String) (v : α)
    (hne : k2 ≠ k) (m : List (String × α)) :
    mapGet k2 (mapSet k v m) = mapGet k2 m := by
  unfold mapGet mapSet
  by_cases h : m.any (fun p => p.1 == k) = true
  · rw [if_pos h, find?_overwrite_other k k2 v hne m]
  · rw [if_neg h, List.find?_append]
    have hlast : ([((k, v) : String × α)].find? (fun p => p.1 == k2)) = none := by
      rw [List.find?_eq_none]
      intro x hx hpx
      rw [List.mem_singleton.mp hx] at hpx
      exact absurd (beq_iff_eq.mp hpx) (Ne.symm hne)
    rw [hlast]
    cases hfind : m.find? (fun p => p.1 == k2) <;> rfl

/-- Inversion for a successful symbolic `jwt.verify`. -/
theorem jwtVerify_some {token : SignedJWT} {secret : String} {now : Int}
    {c : JWTClaims} (h : jwtVerify token secret now = some c) :
    c = token.claims ∧ token.secret = secret ∧ now < token.claims.exp := by
  unfold jwtVerify at h
  split at h
  · next hcond => exact ⟨(Option.some.inj h).symm, hcond.1, hcond.2⟩
  · exact absurd h (by simp)

/-- The session record `refreshToken` stores under the fresh `jti`. -/
def rotatedSession (s : SessionData) (j : String) (now : Int) : SessionData :=
  { s with sessionId := j, expiresAt := now + 7 * 24 * 60 * 60 * 1000 }

/-- Shape of a successful `refreshToken` call: the result carries the
fresh token pair and the store gains the rotated session under the new
`jti`; nothing is deleted. -/
theorem refreshToken_success_eq (sessions : SessionStore) (secret : String)
    (now : Int) (j : String) (token : SignedJWT) (c : JWTClaims)
    (s : SessionData)
    (hv : jwtVerify token secret now = some c)
    (hs : getSession c.jti sessions = some s)
    (hexp : ¬ s.expiresAt < now) :
    refreshToken sessions secret now j token =
      ({ success := true,
         tokens := some (generateTokens c.userId c.email secret now j).1,
         message := none },
       storeSession now j (rotatedSession s j now) sessions) := by
  unfold refreshToken rotatedSession
  simp only [hv, hs]
  rw [if_neg hexp]

/-- Shape of a failed `refreshToken` call: whenever the token does not
verify, or the referenced session is missing or expired, the call fails
and the store is unchanged. -/
theorem refreshToken_failure_success_false (sessions : SessionStore)
    (secret : String) (now : Int) (j : String) (token : SignedJWT)
    (h : jwtVerify token secret now = none ∨
      ∃ c, jwtVerify token secret now = some c ∧
        (getSession c.jti sessions = none ∨
          ∃ s, getSession c.jti sessions = some s ∧ s.expiresAt < now)) :
    (refreshToken sessions secret now j token).1.success = false := by
  unfold refreshToken
  rcases h with hv | ⟨c, hv, hrest⟩
  · simp only [hv]
  · rcases hrest with hs | ⟨s, hs, hexp⟩
    · simp only [hv, hs]
    · simp only [hv, hs]
      rw [if_pos hexp]

/-- C2 (amended): a successful `refreshToken` does not invalidate the old
session — it stores the rotated session under the new `jti` and leaves
the old record usable — so presenting the very same old refresh token
again at the same instant succeeds a second time instead of failing. -/
theorem refreshToken_old_token_reusable (sessions : SessionStore)
    (secret : String) (now : Int) (j1 j2 : String) (token : SignedJWT)
    (h : (refreshToken sessions secret now j1 token).1.success = true) :
    (refreshToken (refreshToken sessions secret now j1 token).2 secret now j2
        token).1.success = true := by
  rcases hv : jwtVerify token secret now with _ | c
  · rw [refreshToken_failure_success_false sessions secret now j1 token
      (Or.inl hv)] at h
    · exact absurd h (by simp)
  · rcases hs : getSession c.jti sessions with _ | s
    · have := refreshToken_failure_success_false sessions secret now j1 token
        (Or.inr ⟨c, hv, Or.inl hs⟩)
      rw [this] at h
      exact absurd h (by simp)
    · by_cases hexp : s.expiresAt < now
      · have := refreshToken_failure_success_false sessions secret now j1 token
          (Or.inr ⟨c, hv, Or.inr ⟨s, hs, hexp⟩⟩)
        rw [this] at h
        exact absurd h (by simp)
      · rw [refreshToken_success_eq sessions secret now j1 token c s hv hs hexp]
        dsimp only
        by_cases hj : c.jti = j1
        · have hget :
              getSession c.jti
                (storeSession now j1 (rotatedSession s j1 now) sessions) =
              some { rotatedSession s j1 now with createdAt := now } := by
            rw [hj]
            unfold getSession storeSession
            exact mapGet_mapSet_self j1 _ sessions
          rw [refreshToken_success_eq _ secret now j2 token c _ hv hget
            (by simp [rotatedSession])]
        · have hget :
              getSession c.jti
                (storeSession now j1 (rotatedSession s j1 now) sessions) =
              some s := by
            unfold getSession storeSession
            rw [mapGet_mapSet_other j1 c.jti _ hj sessions]
            exact hs
          rw [refreshToken_success_eq _ secret now j2 token c s hv hget hexp]

/-- The session and refresh token of the C2 scenario. -/
def oldSession : SessionData :=
  { userId := "u", email := "e@x.yz", publicKey := "pk", sessionId := "j1",
    createdAt := 0, expiresAt := 100 }

/-- The old refresh token of the C2 scenario, bound to session `j1`. -/
def oldRefreshToken : SignedJWT :=
  { claims := { userId := "u", email := "e@x.yz", jti := "j1", exp := 50 },
    secret := "s" }

/-- C2 (counterexample): after a successful refresh, presenting the very
same old refresh token again succeeds instead of failing — the old
session record is still in the store. -/
theorem refreshToken_old_token_accepted_twice :
    (refreshToken [("j1", oldSession)] "s" 0 "j2" oldRefreshToken).1.success
      = true ∧
    (refreshToken (refreshToken [("j1", oldSession)] "s" 0 "j2" oldRefreshToken).2
        "s" 0 "j3" oldRefreshToken).1.success = true :=
  ⟨by decide, by decide⟩

/-- Witness for C2's amended theorem at concrete data. -/
theorem refreshToken_old_token_reusable_witness :
    (refreshToken (refreshToken [("j1", oldSession)] "s" 0 "j2" oldRefreshToken).2
        "s" 0 "j3" oldRefreshToken).1.success = true :=
  refreshToken_old_token_reusable [("j1", oldSession)] "s" 0 "j2" "j3"
    oldRefreshToken (by decide)

/-- Witness for C6 at concrete data: a token whose referenced session is
live is accepted. -/
theorem verifyToken_requires_live_session_witness :
    (verifyToken [("j1", oldSession)] "s" 0 oldRefreshToken).valid = true :=
  (verifyToken_requires_live_session [("j1", oldSession)] "s" 0
    oldRefreshToken).mpr ⟨by decide, oldSession, by decide, by decide⟩

/-- One `addUsedNonce` call never leaves more than 10,000 entries. -/
theorem addUsedNonce_length_le (n : String) (s : List String)
    (h : s.length ≤ 10000) : (addUsedNonce n s).length ≤ 10000 := by
  simp only [addUsedNonce]
  by_cases hc : s.contains n = true
  · rw [if_pos hc, if_neg (by omega : ¬ (10000 : Nat) < s.length)]
    exact h
  · rw [if_neg hc]
    have hlen : (s ++ [n]).length = s.length + 1 := by simp
    by_cases hbig : 10000 < (s ++ [n]).length
    · rw [if_pos hbig, List.length_drop]
      omega
    · rw [if_neg hbig]
      omega

/-- The nonce just added by `addUsedNonce` is in the resulting set. -/
theorem addUsedNonce_contains_self (n : String) (s : List String)
    (h : s.length ≤ 10000) : (addUsedNonce n s).contains n = true := by
  simp only [addUsedNonce]
  by_cases hc : s.contains n = true
  · rw [if_pos hc, if_neg (by omega : ¬ (10000 : Nat) < s.length)]
    exact hc
  · rw [if_neg hc]
    by_cases hbig : 10000 < (s ++ [n]).length
    · rw [if_pos hbig]
      have hlen : (s ++ [n]).length = s.length + 1 := by simp
      have hslen : s.length = 10000 := by omega
      rw [hlen, hslen, List.drop_append_eq_append_drop, hslen]
      simp
    · rw [if_neg hbig]
      simp

/-- Every consumed-nonce set reachable from the empty set stays within
the 10,000-entry bound. -/
theorem runNonces_length_le (ns : List String) :
    (runNonces ns).length ≤ 10000 := by
  unfold runNonces
  have hgen : ∀ (l : List String) (s : List String), s.length ≤ 10000 →
      (l.foldl (fun acc x => addUsedNonce x acc) s).length ≤ 10000 := by
    intro l
    induction l with
    | nil => intro s hs; exact hs
    | cons x t ih =>
        intro s hs
        exact ih _ (addUsedNonce_length_le x s hs)
  exact hgen ns [] (by simp)

/-- C9: along any sequence of `addUsedNonce` calls from the empty set,
the set never exceeds 10,000 entries after a call returns and the
just-added nonce is always retained; whenever an insertion would push
the set past 10,000 (which can only happen with a fresh nonce on a set
of exactly 10,000), the set is immediately cut down to exactly the 5,000
most recently inserted entries — the length-5,000 suffix of the
insertion-ordered list. -/
theorem addUsedNonce_bounded_eviction (ns : List String) (n : String) :
    (runNonces ns).length ≤ 10000 ∧
    (addUsedNonce n (runNonces ns)).contains n = true ∧
    (addUsedNonce n (runNonces ns)).length ≤ 10000 ∧
    (∀ s : List String, s.length ≤ 10000 →
      10000 < (if s.contains n then s else s ++ [n]).length →
        s.length = 10000 ∧ s.contains n = false ∧
        addUsedNonce n s = (s ++ [n]).drop 5001 ∧
        (addUsedNonce n s).length = 5000) := by
  refine ⟨runNonces_length_le ns,
    addUsedNonce_contains_self n _ (runNonces_length_le ns),
    addUsedNonce_length_le n _ (runNonces_length_le ns), ?_⟩
  intro s hs hbig
  by_cases hc : s.contains n = true
  · rw [if_pos hc] at hbig
    omega
  · rw [if_neg hc] at hbig
    have hlen : (s ++ [n]).length = s.length + 1 := by simp
    have hslen : s.length = 10000 := by omega
    have heq : addUsedNonce n s = (s ++ [n]).drop 5001 := by
      simp only [addUsedNonce]
      rw [if_neg hc, if_pos hbig]
      have hidx : (s ++ [n]).length - 5000 = 5001 := by omega
      rw [hidx]
    refine ⟨hslen, Bool.eq_false_iff.mpr hc, heq, ?_⟩
    rw [heq, List.length_drop]
    omega

/-- Witness for C9's eviction clause at a concrete full set: adding a
fresh nonce to a 10,000-entry set leaves exactly 5,000 entries. -/
theorem addUsedNonce_bounded_eviction_witness :
    (addUsedNonce "b" (List.replicate 10000 "w")).length = 5000 := by
  have hc : ¬ ((List.replicate 10000 "w").contains "b" = true) := by
    rw [show (List.replicate 10000 "w").contains "b"
        = List.elem "b" (List.replicate 10000 "w") from rfl, List.elem_iff]
    intro hmem
    rw [List.mem_replicate] at hmem
    exact absurd hmem.2 (by decide)
  exact ((addUsedNonce_bounded_eviction [] "b").2.2.2 (List.replicate 10000 "w")
    (by simp only [List.length_replicate]; decide)
    (by rw [if_neg hc, List.length_append, List.length_replicate]; decide)).2.2.2

/-- Every connection surviving a sweep has its liveness flag cleared. -/
theorem heartbeatSweep_remaining_not_alive (clients : List (String × ClientConn))
    (p : String × ClientConn) (h : p ∈ (heartbeatSweep clients).remaining) :
    p.2.isAlive = false := by
  unfold heartbeatSweep at h
  simp only [List.mem_map] at h
  rcases h with ⟨q, hq, rfl⟩
  rfl

/-- Entries surviving a sweep come from live entries of the input
registry, with user id and address preserved. -/
theorem heartbeatSweep_remaining_src (clients : List (String × ClientConn))
    (p : String × ClientConn) (h : p ∈ (heartbeatSweep clients).remaining) :
    ∃ q ∈ clients, q.1 = p.1 ∧ q.2.email = p.2.email ∧ q.2.isAlive = true := by
  unfold heartbeatSweep at h
  simp only [List.mem_map] at h
  rcases h with ⟨q, hq, rfl⟩
  rcases List.mem_filter.mp hq with ⟨hqmem, hqalive⟩
  exact ⟨q, hqmem, rfl, rfl, hqalive⟩

/-- `pong` preserves ids and addresses and can only change the liveness
flag of the ponged id. -/
theorem pong_src (u : String) (clients : List (String × ClientConn))
    (p : String × ClientConn) (h : p ∈ pong u clients) :
    ∃ q ∈ clients, q.1 = p.1 ∧ q.2.email = p.2.email ∧
      (p.2.isAlive = q.2.isAlive ∨ p.1 = u) := by
  unfold pong at h
  simp only [List.mem_map] at h
  rcases h with ⟨q, hq, rfl⟩
  by_cases hqu : (q.1 == u) = true
  · rw [if_pos hqu]
    exact ⟨q, hq, rfl, rfl, Or.inr (beq_iff_eq.mp hqu)⟩
  · rw [if_neg hqu]
    exact ⟨q, hq, rfl, rfl, Or.inl rfl⟩

/-- A batch of pongs preserves ids and addresses and can only change the
liveness flags of the ponged ids. -/
theorem applyPongs_src (pongs : List String)
    (clients : List (String × ClientConn)) (p : String × ClientConn)
    (h : p ∈ applyPongs pongs clients) :
    ∃ q ∈ clients, q.1 = p.1 ∧ q.2.email = p.2.email ∧
      (p.2.isAlive = q.2.isAlive ∨ p.1 ∈ pongs) := by
  induction pongs generalizing clients with
  | nil => exact ⟨p, h, rfl, rfl, Or.inl rfl⟩
  | cons u t ih =>
      have h2 : p ∈ applyPongs t (pong u clients) := h
      rcases ih (pong u clients) h2 with ⟨q, hq, hid, hemail, hflag⟩
      rcases pong_src u clients q hq with ⟨r, hr, hid2, hemail2, hflag2⟩
      refine ⟨r, hr, hid2.trans hid, hemail2.trans hemail, ?_⟩
      rcases hflag with hA | hB
      · rcases hflag2 with hC | hD
        · exact Or.inl (hA.trans hC)
        · refine Or.inr ?_
          rw [← hid, hD]
          exact List.mem_cons_self u t
      · exact Or.inr (List.mem_cons_of_mem u hB)

/-- An entry whose id receives no pong passes through a pong batch
unchanged. -/
theorem applyPongs_preserves_unponged (pongs : List String)
    (clients : List (String × ClientConn)) (uid : String) (c : ClientConn)
    (h : (uid, c) ∈ clients) (hn : uid ∉ pongs) :
    (uid, c) ∈ applyPongs pongs clients := by
  induction pongs generalizing clients with
  | nil => exact h
  | cons u t ih =>
      have hne : uid ≠ u := fun he => hn (he ▸ List.mem_cons_self u t)
      have h2 : (uid, c) ∈ pong u clients := by
        unfold pong
        refine List.mem_map.mpr ⟨(uid, c), h, ?_⟩
        rw [if_neg (by simp [hne] : ¬ (((uid, c) : String × ClientConn).1 == u) = true)]
      exact ih (pong u clients) h2 (fun hm => hn (List.mem_cons_of_mem u hm))

/-- C10: every connection still marked alive at a sweep is pinged and has
its flag cleared; a connection that pongs neither before the first sweep
nor between the two sweeps is terminated by the second sweep and is gone
from the registry; and if that connection was the only one carrying its
identity's address, a subsequent `notifyNewMessage` to that address
sends nothing. -/
theorem heartbeat_removes_silent_connection
    (clients : List (String × ClientConn)) (uid : String) (c : ClientConn)
    (pongs : List String)
    (hmem : (uid, c) ∈ clients)
    (halive : c.isAlive = true)
    (hnopong : uid ∉ pongs)
    (hunique : ∀ p ∈ clients, p.2.email = c.email → p.1 = uid) :
    (∀ q ∈ clients, q.2.isAlive = true →
      q.1 ∈ (heartbeatSweep clients).pinged ∧
      (q.1, { email := q.2.email, isAlive := false }) ∈
        (heartbeatSweep clients).remaining) ∧
    uid ∈ (heartbeatSweep
      (applyPongs pongs (heartbeatSweep clients).remaining)).terminated ∧
    (∀ p ∈ (heartbeatSweep
        (applyPongs pongs (heartbeatSweep clients).remaining)).remaining,
      p.1 ≠ uid) ∧
    notifyNewMessage c.email
      (heartbeatSweep
        (applyPongs pongs (heartbeatSweep clients).remaining)).remaining
      = none := by
  have hG : ∀ q ∈ clients, q.2.isAlive = true →
      q.1 ∈ (heartbeatSweep clients).pinged ∧
      (q.1, ({ email := q.2.email, isAlive := false } : ClientConn)) ∈
        (heartbeatSweep clients).remaining := by
    intro q hq hqa
    constructor
    · exact List.mem_map.mpr ⟨q, List.mem_filter.mpr ⟨hq, hqa⟩, rfl⟩
    · exact List.mem_map.mpr ⟨q, List.mem_filter.mpr ⟨hq, hqa⟩, rfl⟩
  have hmid : (uid, ({ email := c.email, isAlive := false } : ClientConn)) ∈
      applyPongs pongs (heartbeatSweep clients).remaining :=
    applyPongs_preserves_unponged pongs _ uid _
      ((hG (uid, c) hmem halive).2) hnopong
  have hterm : uid ∈ (heartbeatSweep
      (applyPongs pongs (heartbeatSweep clients).remaining)).terminated := by
    unfold heartbeatSweep
    exact List.mem_map.mpr ⟨(uid, { email := c.email, isAlive := false }),
      List.mem_filter.mpr ⟨hmid, rfl⟩, rfl⟩
  have hgone : ∀ p ∈ (heartbeatSweep
      (applyPongs pongs (heartbeatSweep clients).remaining)).remaining,
      p.1 ≠ uid := by
    intro p hp hpid
    rcases heartbeatSweep_remaining_src _ p hp with ⟨q, hq, hqid, _, hqalive⟩
    rcases applyPongs_src pongs _ q hq with ⟨r, hr, _, _, hflag⟩
    have hrdead : r.2.isAlive = false :=
      heartbeatSweep_remaining_not_alive clients r hr
    rcases hflag with hA | hB
    · rw [hqalive, hrdead] at hA
      exact absurd hA (by simp)
    · rw [hqid, hpid] at hB
      exact hnopong hB
  refine ⟨hG, hterm, hgone, ?_⟩
  unfold notifyNewMessage
  rw [List.find?_eq_none]
  intro x hx hpx
  rcases List.mem_map.mp hx with ⟨p, hp, rfl⟩
  have hpe : p.2.email = c.email := beq_iff_eq.mp hpx
  rcases heartbeatSweep_remaining_src _ p hp with ⟨q, hq, hqid, hqe, _⟩
  rcases applyPongs_src pongs _ q hq with ⟨r, hr, hrid, hre, _⟩
  rcases heartbeatSweep_remaining_src clients r hr with ⟨w, hw, hwid, hwe, _⟩
  have hweq : w.2.email = c.email := by rw [hwe, hre, hqe, hpe]
  have hwuid : w.1 = uid := hunique w hw hweq
  have hpid : p.1 = uid := by rw [← hqid, ← hrid, ← hwid, hwuid]
  exact hgone p hp hpid

/-- The two live connections of the C10 witness scenario. -/
def wsClients : List (String × ClientConn) :=
  [("u1", { email := "a@b.cd", isAlive := true }),
   ("u2", { email := "x@y.zw", isAlive := true })]

/-- Witness for C10 at concrete data: connection `u1` never pongs while
`u2` does; after two sweeps `u1` is terminated and a notification to its
address is a silent no-op. -/
theorem heartbeat_removes_silent_connection_witness :
    "u1" ∈ (heartbeatSweep
      (applyPongs ["u2"] (heartbeatSweep wsClients).remaining)).terminated ∧
    notifyNewMessage "a@b.cd"
      (heartbeatSweep
        (applyPongs ["u2"] (heartbeatSweep wsClients).remaining)).remaining
      = none :=
  have h := heartbeat_removes_silent_connection wsClients "u1"
    { email := "a@b.cd", isAlive := true } ["u2"]
    (by decide) (by decide) (by decide) (by decide)
  ⟨h.2.1, h.2.2.2⟩

/-- C3 (amended): `cleanup` retains exactly the sessions whose
`createdAt` is at most one hour old — a session entry survives the sweep
iff it was in the store and `createdAt < now - 3600000` fails; the
session's `expiresAt` is never consulted. -/
theorem cleanup_filters_by_age (now : Int) (sessions : SessionStore)
    (p : String × SessionData) :
    p ∈ cleanup now sessions ↔
      p ∈ sessions ∧ ¬ p.2.createdAt < now - 60 * 60 * 1000 := by
  unfold cleanup
  simp [List.mem_filter]

/-- Witness for C3's amended theorem at concrete data: a session stored
within the last hour survives the sweep even though (being stored) it is
in the store. -/
theorem cleanup_filters_by_age_witness :
    ("s1", staleSession) ∈ cleanup 1000 [("s1", staleSession)] :=
  (cleanup_filters_by_age 1000 [("s1", staleSession)]
    ("s1", staleSession)).mpr ⟨by decide, by decide⟩

